import Mathlib

/-!
Verification development for the wawa-game repository.

Shallow embedding of the algorithmic cores:
* the tiled-terrain LOD re-evaluation loop (`TiledTerrainLOD` in
  `src/components/ImpostorForest.tsx`),
* the hybrid character controller (`GodotCharacterHybrid` in
  `src/components/GodotCharacterHybrid.tsx`): ground/ceiling raycast checks,
  the grounded flag, edge-triggered jumping, the crouch debounce timer,
  landing detection, and angle normalization,
* the terrain height sampler clamp (`getTerrainHeight` in
  `src/components/ProceduralTerrain5.jsx`) and the grass tile instance
  populator (`createOptimizedTileMesh` in
  `src/components/SimonDevGrass23/OptimizedGrassGeometry.tsx`).

Numbers are modelled as rationals (`ℚ`); JavaScript non-finite float values
are modelled as `Option ℚ` with `none` standing for NaN/Infinity; code that
may throw is modelled in `Except Unit`.
-/

namespace WawaGame

/-! ## Tiled terrain LOD (ImpostorForest.tsx, `TiledTerrainLOD`) -/

/-- One terrain tile, mirroring the `TerrainTile` interface fields that the
LOD loop reads and writes (`x`/`z` duplicate `centerX`/`centerZ` in the
source and are omitted; the `mesh` handle and `tileSize` play no role in the
re-evaluation loop). -/
structure TerrainTile where
  centerX : ℚ
  centerZ : ℚ
  distanceToCamera : ℚ
  currentLOD : Option ℕ
  lastUpdateTime : ℤ
  deriving DecidableEq, Repr

/-- The LOD bucket ladder of `TiledTerrainLOD`'s `useFrame` body
(ImpostorForest.tsx lines 1291-1301):
`if (distance < lodDistance1) newLOD = 0; else if (distance < lodDistance2)
newLOD = 1; else if (distance < lodDistance3) newLOD = 2; else newLOD = 3;`. -/
def selectLOD (lodDistance1 lodDistance2 lodDistance3 distance : ℚ) : ℕ :=
  if distance < lodDistance1 then 0
  else if distance < lodDistance2 then 1
  else if distance < lodDistance3 then 2
  else 3

/-- Per-tile body of the re-evaluation loop: recompute `distanceToCamera`
as the 2D distance from tile center to the camera, then write the selected
LOD (and the tile's `lastUpdateTime`) only when the bucket changed.
`sqrtFn` abstracts `Math.sqrt`, which the loop applies to
`(centerX - cameraX)^2 + (centerZ - cameraZ)^2`. -/
def updateTileLOD (sqrtFn : ℚ → ℚ) (lodDistance1 lodDistance2 lodDistance3 : ℚ)
    (cameraX cameraZ : ℚ) (now : ℤ) (tile : TerrainTile) : TerrainTile :=
  let distance := sqrtFn ((tile.centerX - cameraX) ^ 2 + (tile.centerZ - cameraZ) ^ 2)
  let newLOD := selectLOD lodDistance1 lodDistance2 lodDistance3 distance
  let t := { tile with distanceToCamera := distance }
  if tile.currentLOD = some newLOD then t
  else { t with currentLOD := some newLOD, lastUpdateTime := now }

/-- State of the `TiledTerrainLOD` component that the `useFrame` callback
touches: the throttle timestamp `lastUpdateTime.current` (milliseconds) and
the tile list `tilesRef.current`. -/
structure LODState where
  lastUpdateTime : ℤ
  tiles : List TerrainTile
  deriving DecidableEq, Repr

/-- One frame of `TiledTerrainLOD`'s `useFrame` callback
(ImpostorForest.tsx lines 1272-1323): return unchanged if there are no
tiles; return unchanged when fewer than 100 ms have elapsed since the
previous re-evaluation; otherwise record `now` and update every tile. -/
def tiledTerrainFrame (sqrtFn : ℚ → ℚ) (lodDistance1 lodDistance2 lodDistance3 : ℚ)
    (cameraX cameraZ : ℚ) (now : ℤ) (s : LODState) : LODState :=
  if s.tiles.isEmpty then s
  else if now - s.lastUpdateTime < 100 then s
  else
    { lastUpdateTime := now
      tiles := s.tiles.map
        (updateTileLOD sqrtFn lodDistance1 lodDistance2 lodDistance3 cameraX cameraZ now) }

/-! ## Claims C1 and C5: the LOD bucket ladder -/

/-- C1: with the configured thresholds in ascending order (the defaults are
60, 120, 200), the bucket selected for a tile distance `d` is uniquely
characterized: bucket 0 (highest detail) iff `d` is strictly below the first
threshold, bucket 1 iff the first threshold ≤ `d` < second threshold,
bucket 2 iff the second threshold ≤ `d` < third threshold, and bucket 3
(farthest) iff `d` is at or beyond the last threshold; being a function,
`selectLOD` maps every distance to exactly one bucket. -/
theorem selectLOD_bucket_characterization (d1 d2 d3 d : ℚ)
    (h12 : d1 ≤ d2) (h23 : d2 ≤ d3) :
    (selectLOD d1 d2 d3 d = 0 ↔ d < d1) ∧
    (selectLOD d1 d2 d3 d = 1 ↔ d1 ≤ d ∧ d < d2) ∧
    (selectLOD d1 d2 d3 d = 2 ↔ d2 ≤ d ∧ d < d3) ∧
    (selectLOD d1 d2 d3 d = 3 ↔ d3 ≤ d) := by
  unfold selectLOD
  by_cases h1 : d < d1 <;> by_cases h2 : d < d2 <;> by_cases h3 : d < d3 <;>
    simp [h1, h2, h3] <;> linarith

/-- Witness for C1 at the configured default thresholds 60/120/200 and the
boundary distance 120. -/
theorem selectLOD_bucket_characterization_witness :
    (60 : ℚ) ≤ 120 ∧ (120 : ℚ) ≤ 200 ∧
    (selectLOD 60 120 200 120 = 2 ↔ (120 : ℚ) ≤ 120 ∧ (120 : ℚ) < 200) := by
  refine ⟨by norm_num, by norm_num, ?_⟩
  exact (selectLOD_bucket_characterization 60 120 200 120 (by norm_num) (by norm_num)).2.2.1

/-- C5 counterexample: at the default thresholds 60/120/200, a tile at
distance exactly 60 (the first threshold) is assigned bucket 1, while the
nearer (higher-detail) bucket — the one taken just below the threshold — is
bucket 0; so a tile exactly on a threshold is NOT assigned to the nearer
bucket. -/
theorem selectLOD_threshold_not_nearer_bucket :
    selectLOD 60 120 200 60 = 1 ∧ selectLOD 60 120 200 59 = 0 ∧ (1 : ℕ) ≠ 0 := by
  refine ⟨by norm_num [selectLOD], by norm_num [selectLOD], by norm_num⟩

/-- C5 (amended): a tile whose distance is exactly a LOD threshold is
assigned to the farther (lower-detail, cheaper) bucket — the same bucket as
distances just beyond the threshold — and re-running the per-tile update at
the same camera position leaves the assignment unchanged (no oscillation at
the boundary). -/
theorem selectLOD_threshold_farther_bucket (d1 d2 d3 : ℚ)
    (h12 : d1 < d2) (h23 : d2 < d3) :
    selectLOD d1 d2 d3 d1 = 1 ∧ selectLOD d1 d2 d3 d2 = 2 ∧
    selectLOD d1 d2 d3 d3 = 3 ∧
    ∀ (sqrtFn : ℚ → ℚ) (cx cz : ℚ) (n1 n2 : ℤ) (t : TerrainTile),
      updateTileLOD sqrtFn d1 d2 d3 cx cz n2
          (updateTileLOD sqrtFn d1 d2 d3 cx cz n1 t) =
        updateTileLOD sqrtFn d1 d2 d3 cx cz n1 t := by
  refine ⟨?_, ?_, ?_, ?_⟩
  · simp only [selectLOD]
    rw [if_neg (lt_irrefl d1), if_pos h12]
  · simp only [selectLOD]
    rw [if_neg (by linarith : ¬ d2 < d1), if_neg (lt_irrefl d2), if_pos h23]
  · simp only [selectLOD]
    rw [if_neg (by linarith : ¬ d3 < d1), if_neg (by linarith : ¬ d3 < d2),
      if_neg (lt_irrefl d3)]
  · intro sqrtFn cx cz n1 n2 t
    simp only [updateTileLOD]
    split <;> simp_all

/-- Witness for the amended C5 at the default thresholds 60/120/200 and a
concrete tile. -/
theorem selectLOD_threshold_farther_bucket_witness :
    (60 : ℚ) < 120 ∧ (120 : ℚ) < 200 ∧ selectLOD 60 120 200 60 = 1 := by
  refine ⟨by norm_num, by norm_num, ?_⟩
  exact (selectLOD_threshold_farther_bucket 60 120 200 (by norm_num) (by norm_num)).1

/-! ## Ground and ceiling raycast checks (GodotCharacterHybrid.tsx) -/

/-- A physics raycast outcome as consumed by the character controller:
`Except.error ()` models a thrown exception, `Except.ok none` no hit, and
`Except.ok (some toi)` a hit with the reported `timeOfImpact`.  The cast
itself (origin just above the feet, direction straight down, the character's
own rigid body excluded via `filterExcludeRigidBody`) is performed by the
physics engine and is scripted here. -/
def RayOutcome : Type := Except Unit (Option ℚ)

/-- The 20 cm ground-detection ray length (`const rayLength = 0.2`). -/
def groundRayLength : ℚ := 1 / 5

/-- `checkGroundedRapier` (GodotCharacterHybrid.tsx lines 260-312): grounded
iff the downward ray hit something within `rayLength`; a missing hit returns
`false`; a thrown exception is caught and returns `false`. -/
def checkGroundedRapier (castResult : RayOutcome) : Bool :=
  match castResult with
  | Except.error _ => false
  | Except.ok none => false
  | Except.ok (some hitDistance) => decide (hitDistance ≤ groundRayLength)

/-- `checkCeilingClearance` (GodotCharacterHybrid.tsx lines 315-356): any
upward hit means no clearance (`false`); no hit means comfortable clearance
(`true`); a thrown exception is caught and defaults to allowing the stand
(`true`). -/
def checkCeilingClearance (castResult : RayOutcome) : Bool :=
  match castResult with
  | Except.error _ => true
  | Except.ok (some _) => false
  | Except.ok none => true

/-! ## The grounded flag (GodotCharacterHybrid.tsx `useFrame`, lines 373-384) -/

/-- Per-frame inputs to the grounded-flag update: the scripted downward
raycast outcome and whether the 200 ms crouch-transition grace period is
active (`crouchTransitioningRef.current`). -/
structure GroundFrame where
  ray : RayOutcome
  crouchTransitioning : Bool

/-- The value written to the grounded flag on one frame:
`let grounded = checkGroundedRapier(); if (crouchTransitioningRef.current)
grounded = true; setIsGrounded(grounded);`. -/
def groundedOfFrame (f : GroundFrame) : Bool :=
  if f.crouchTransitioning then true else checkGroundedRapier f.ray

/-- The sequence of observed values of the `isGrounded` flag: entry `n` is
the flag as seen during frame `n` (entry 0 is the initial value; the value
computed on frame `n` becomes observable on frame `n + 1`). -/
def groundedFlagTrace (init : Bool) : List GroundFrame → List Bool
  | [] => [init]
  | f :: fs => init :: groundedFlagTrace (groundedOfFrame f) fs

theorem groundedFlagTrace_length (init : Bool) (fs : List GroundFrame) :
    (groundedFlagTrace init fs).length = fs.length + 1 := by
  induction fs generalizing init with
  | nil => rfl
  | cons f fs ih => simp [groundedFlagTrace, ih]

theorem groundedFlagTrace_head (init : Bool) (fs : List GroundFrame) :
    (groundedFlagTrace init fs).getD 0 false = init := by
  cases fs <;> rfl

/-- C6: a raycast exception never escapes the frame update — both checks
catch it and return the safe default: the ground check reports not grounded
(`false`) and the ceiling check reports clearance available (`true`). -/
theorem raycast_exception_treated_as_no_hit :
    checkGroundedRapier (Except.error ()) = false ∧
    checkCeilingClearance (Except.error ()) = true :=
  ⟨rfl, rfl⟩

/-- C3 counterexample: during a crouch-transition grace period the grounded
flag is forced to `true` regardless of the raycast.  With a scripted no-hit
raycast on a transitioning frame, the flag observed one frame later is
`true` while the most recent raycast result is `false`— the claim as stated
fails. -/
theorem grounded_flag_forced_during_transition :
    (groundedFlagTrace false [⟨Except.ok none, true⟩]).getD 1 false = true ∧
    checkGroundedRapier (Except.ok none) = false :=
  ⟨rfl, rfl⟩

/-- C3 (amended): provided no crouch-transition grace period is active
(that 200 ms window forces the flag to `true`), the grounded flag observed
on frame `n + 1` equals the hit/no-hit result of the downward raycast of
frame `n` — a hit iff the ray hit within the fixed 0.2 detection distance
(the cast already excludes the character's own body). -/
theorem grounded_flag_one_frame_delay (init : Bool) (fs : List GroundFrame)
    (hq : ∀ f ∈ fs, f.crouchTransitioning = false) (n : ℕ) (hn : n < fs.length) :
    (groundedFlagTrace init fs).getD (n + 1) false =
      checkGroundedRapier ((fs.getD n ⟨Except.ok none, false⟩).ray) := by
  induction fs generalizing init n with
  | nil => exact absurd hn (by simp)
  | cons f fs ih =>
    cases n with
    | zero =>
      have hf : f.crouchTransitioning = false := hq f (by simp)
      simpa [groundedFlagTrace, groundedOfFrame, hf] using
        groundedFlagTrace_head (groundedOfFrame f) fs |>.trans
          (by simp [groundedOfFrame, hf])
    | succ n =>
      have hq2 : ∀ g ∈ fs, g.crouchTransitioning = false := by
        intro g hg; exact hq g (by simp [hg])
      have hn2 : n < fs.length := by simpa using hn
      simpa [groundedFlagTrace] using ih (groundedOfFrame f) hq2 n hn2

/-- Witness for the amended C3: a two-frame script (hit at 0.1, then no
hit) with no crouch transition; the flag observed on frame 1 equals the
frame-0 raycast result. -/
theorem grounded_flag_one_frame_delay_witness :
    (groundedFlagTrace false [⟨Except.ok (some (1/10)), false⟩, ⟨Except.ok none, false⟩]).getD 1 false =
      checkGroundedRapier (Except.ok (some (1/10))) := by
  have h := grounded_flag_one_frame_delay false
      [⟨Except.ok (some (1/10)), false⟩, ⟨Except.ok none, false⟩]
      (by intro f hf; simp at hf; rcases hf with h1 | h1 <;> simp [h1]) 0 (by simp)
  simpa using h

/-! ## Claim C8: the 100 ms LOD throttle -/

/-- C8: the tile distance/LOD re-evaluation is throttled to 100 ms of wall
clock: on any frame less than 100 ms after the previous re-evaluation the
whole LOD state — every tile's `distanceToCamera` and LOD assignment, and
the throttle timestamp — is left unchanged; the character state machine, by
contrast, has no such gate: its per-frame update runs on every frame of any
scripted input sequence (one flag update per frame). -/
theorem lod_reeval_throttled_100ms (sqrtFn : ℚ → ℚ)
    (d1 d2 d3 cx cz : ℚ) (now : ℤ) (s : LODState)
    (h : now - s.lastUpdateTime < 100) :
    tiledTerrainFrame sqrtFn d1 d2 d3 cx cz now s = s ∧
    ∀ (init : Bool) (fs : List GroundFrame),
      (groundedFlagTrace init fs).length = fs.length + 1 := by
  refine ⟨?_, fun init fs => groundedFlagTrace_length init fs⟩
  unfold tiledTerrainFrame
  rcases hre : s.tiles.isEmpty with hv | hv
  · simp [hre, h]
  · simp [hre]

/-- Witness for C8: a frame 50 ms after the previous re-evaluation leaves a
concrete one-tile state untouched. -/
theorem lod_reeval_throttled_100ms_witness :
    (50 : ℤ) - (0 : ℤ) < 100 ∧
    tiledTerrainFrame id 60 120 200 0 0 50
        ⟨0, [⟨10, 10, 0, none, 0⟩]⟩ = ⟨0, [⟨10, 10, 0, none, 0⟩]⟩ := by
  refine ⟨by norm_num, ?_⟩
  exact (lod_reeval_throttled_100ms id 60 120 200 0 0 50
    ⟨0, [⟨10, 10, 0, none, 0⟩]⟩ (by norm_num)).1

/-! ## Edge-triggered jump (GodotCharacterHybrid.tsx lines 509-644) -/

/-- A linear velocity as read from / written back to the rigid body. -/
structure Vel3 where
  x : ℚ
  y : ℚ
  z : ℚ
  deriving DecidableEq, Repr

/-- Horizontal damping applied while grounded with no movement input
(lines 602-607): `vel.x *= 0.85; if (Math.abs(vel.x) < 0.01) vel.x = 0;`. -/
def dampAxis (v : ℚ) : ℚ :=
  let w := v * (17 / 20)
  if |w| < 1 / 100 then 0 else w

/-- Per-frame inputs to the velocity/jump section of the `useFrame` body:
the jump key, the grounded flag of this frame, whether there is movement
input (`movement.x !== 0 || movement.z !== 0`), and the intended horizontal
velocity computed from heading and speed. -/
structure JumpFrameIn where
  jumpInput : Bool
  grounded : Bool
  moving : Bool
  intendedX : ℚ
  intendedZ : ℚ

/-- One frame of the jump/velocity logic, returning
(new `jumpPressed` latch, new velocity, whether the jump impulse fired).
Mirrors the moving branch (lines 532-578) and the idle branch
(lines 599-628): while grounded, horizontal velocity is set to the intended
velocity (moving) or damped (idle); the impulse fires iff
`jumpInput && grounded && !jumpPressed.current`, setting `vel.y` to
`JUMP_FORCE` and, when moving, carrying the intended horizontal velocity;
`else if (!jumpInput) jumpPressed.current = false`. -/
def jumpFrame (JUMP_FORCE : ℚ) (latch : Bool) (vel : Vel3) (f : JumpFrameIn) :
    Bool × Vel3 × Bool :=
  let vel1 :=
    if f.moving then
      if f.grounded then { vel with x := f.intendedX, z := f.intendedZ } else vel
    else
      if f.grounded then { vel with x := dampAxis vel.x, z := dampAxis vel.z } else vel
  if f.jumpInput && f.grounded && !latch then
    let vel2 :=
      if f.moving then { x := f.intendedX, y := JUMP_FORCE, z := f.intendedZ }
      else { vel1 with y := JUMP_FORCE }
    (true, vel2, true)
  else if !f.jumpInput then (false, vel1, false)
  else (latch, vel1, false)

/-- Frame-by-frame run of the jump logic, emitting per frame the pair
(impulse fired this frame, velocity after the frame). -/
def jumpRun (JUMP_FORCE : ℚ) (latch : Bool) (vel : Vel3) :
    List JumpFrameIn → List (Bool × Vel3)
  | [] => []
  | f :: fs =>
    let r := jumpFrame JUMP_FORCE latch vel f
    (r.2.2, r.2.1) :: jumpRun JUMP_FORCE r.1 r.2.1 fs

theorem jumpRun_latched_held_no_impulse (JUMP_FORCE : ℚ) (vel : Vel3)
    (fs : List JumpFrameIn) (h : ∀ f ∈ fs, f.jumpInput = true) :
    (jumpRun JUMP_FORCE true vel fs).map Prod.fst = List.replicate fs.length false := by
  induction fs generalizing vel with
  | nil => rfl
  | cons f fs ih =>
    have hf : f.jumpInput = true := h f (by simp)
    have h2 : ∀ g ∈ fs, g.jumpInput = true := fun g hg => h g (by simp [hg])
    simp [jumpRun, jumpFrame, hf, List.replicate_succ, ih _ h2]

/-- C2: the jump is edge-triggered. (i) An impulse fires only on a grounded
frame, and when it fires the new vertical velocity is `JUMP_FORCE` and,
when moving, the intended horizontal velocity is carried. (ii) If the jump
key is held and the character grounded over a nonempty block of consecutive
frames, starting with the latch released, exactly one impulse fires — on
the first frame. (iii) While the latch is set and the key is never
released, no impulse fires at all. -/
theorem jump_impulse_edge_triggered (JUMP_FORCE : ℚ) :
    (∀ (latch : Bool) (vel : Vel3) (f : JumpFrameIn),
      (jumpFrame JUMP_FORCE latch vel f).2.2 = true →
        f.grounded = true ∧ (jumpFrame JUMP_FORCE latch vel f).2.1.y = JUMP_FORCE ∧
        (f.moving = true →
          (jumpFrame JUMP_FORCE latch vel f).2.1.x = f.intendedX ∧
          (jumpFrame JUMP_FORCE latch vel f).2.1.z = f.intendedZ)) ∧
    (∀ (vel : Vel3) (fs : List JumpFrameIn), fs ≠ [] →
      (∀ f ∈ fs, f.jumpInput = true ∧ f.grounded = true) →
      (jumpRun JUMP_FORCE false vel fs).map Prod.fst =
        true :: List.replicate (fs.length - 1) false) ∧
    (∀ (vel : Vel3) (fs : List JumpFrameIn), (∀ f ∈ fs, f.jumpInput = true) →
      (jumpRun JUMP_FORCE true vel fs).map Prod.fst = List.replicate fs.length false) := by
  refine ⟨?_, ?_, fun vel fs h => jumpRun_latched_held_no_impulse JUMP_FORCE vel fs h⟩
  · intro latch vel f
    rcases f with ⟨ji, g, m, ix, iz⟩
    cases ji <;> cases g <;> cases latch <;> cases m <;> simp [jumpFrame]
  · intro vel fs hne hall
    cases fs with
    | nil => exact absurd rfl hne
    | cons f fs =>
      have hf := hall f (by simp)
      have h2 : ∀ g ∈ fs, g.jumpInput = true := fun g hg => (hall g (by simp [hg])).1
      simp [jumpRun, jumpFrame, hf.1, hf.2,
        jumpRun_latched_held_no_impulse JUMP_FORCE _ fs h2]

/-- Witness for C2: jump key held and grounded for two consecutive frames
starting unlatched — exactly one impulse, on the first frame. -/
theorem jump_impulse_edge_triggered_witness :
    (([⟨true, true, false, 0, 0⟩, ⟨true, true, false, 0, 0⟩] : List JumpFrameIn) ≠ []) ∧
    (jumpRun 6 false ⟨0, 0, 0⟩
        [⟨true, true, false, 0, 0⟩, ⟨true, true, false, 0, 0⟩]).map Prod.fst =
      [true, false] := by
  refine ⟨by simp, ?_⟩
  have h := (jump_impulse_edge_triggered 6).2.1 ⟨0, 0, 0⟩
      [⟨true, true, false, 0, 0⟩, ⟨true, true, false, 0, 0⟩] (by simp)
      (by
        intro f hf
        simp only [List.mem_cons, List.not_mem_nil, or_false] at hf
        rcases hf with rfl | rfl <;> exact ⟨rfl, rfl⟩)
  simpa using h

/-! ## Crouch / stand debounce (GodotCharacterHybrid.tsx lines 389-507) -/

/-- `const standUpDelay = 0.5; // 500ms delay for stability`. -/
def standUpDelay : ℚ := 1 / 2

/-- The crouch-relevant state: whether the capsule is crouched
(`isCrouchingRef.current`) and the forced-crouch debounce timer
(`ceilingClearanceTimer.current`, seconds; `-1` means disabled). -/
structure CrouchState where
  crouched : Bool
  timer : ℚ
  deriving DecidableEq, Repr

/-- Per-frame inputs: the crouch key, the scripted upward-raycast clearance
result (consulted only while crouched — standing characters never check the
ceiling), and the frame delta time in seconds. -/
structure CrouchFrameIn where
  crouchInput : Bool
  clearance : Bool
  delta : ℚ

/-- One frame of the crouch logic: timer management (lines 397-413) followed
by the `shouldBeCrouched` decision (lines 418-435) reading the updated
timer; the capsule state is then set to `shouldBeCrouched` (lines 472-507). -/
def crouchStep (s : CrouchState) (f : CrouchFrameIn) : CrouchState :=
  let hasClear : Bool := if s.crouched then f.clearance else true
  let t1 : ℚ :=
    if f.crouchInput then -1
    else if !hasClear && s.crouched then 0
    else if hasClear && s.crouched && decide (0 ≤ s.timer) then s.timer + f.delta
    else if !s.crouched then -1
    else s.timer
  if f.crouchInput then { crouched := true, timer := -1 }
  else if !hasClear then { crouched := true, timer := t1 }
  else if 0 ≤ t1 ∧ t1 < standUpDelay then { crouched := true, timer := t1 }
  else { crouched := false, timer := t1 }

/-- Folding the crouch logic over a frame script. -/
def crouchRun (s : CrouchState) (fs : List CrouchFrameIn) : CrouchState :=
  fs.foldl crouchStep s

/-- C4 counterexample: the 500 ms debounce does not gate every
crouch-to-stand transition.  Holding the crouch key for one frame (manual
crouch, clearance available throughout) and releasing it on the next frame
stands the character up immediately: the character was crouched, ceiling
clearance was available, and the transition completed after 1/60 s — far
less than the 0.5 s delay. -/
theorem crouch_manual_release_stands_immediately :
    (crouchStep ⟨false, -1⟩ ⟨true, true, 1/60⟩).crouched = true ∧
    (crouchStep (crouchStep ⟨false, -1⟩ ⟨true, true, 1/60⟩) ⟨false, true, 1/60⟩).crouched
      = false ∧
    (1/60 : ℚ) < standUpDelay := by
  refine ⟨by norm_num [crouchStep], ?_, by norm_num [standUpDelay]⟩
  norm_num [crouchStep, standUpDelay]

/-- C4 (amended): the 500 ms debounce gates the exit from a *forced* crouch
(crouch maintained by a blocking ceiling, debounce timer active).  A frame
without clearance while crouched arms the timer at 0; from any armed timer
value `t ≥ 0`, as long as the clearance-available time accumulated since
then stays below 0.5 s, the character remains crouched on every frame — the
stand cannot complete before 500 ms of clearance have elapsed.  (Releasing
a *manual* crouch, timer disabled at `-1`, stands up without delay.) -/
theorem crouch_forced_stand_debounced :
    (∀ (s : CrouchState) (d : ℚ), s.crouched = true →
      crouchStep s ⟨false, false, d⟩ = ⟨true, 0⟩) ∧
    (∀ (t : ℚ) (ds : List ℚ), 0 ≤ t → (∀ d ∈ ds, 0 ≤ d) →
      t + ds.sum < standUpDelay →
      (crouchRun ⟨true, t⟩ (ds.map fun d => ⟨false, true, d⟩)).crouched = true) := by
  constructor
  · intro s d hs
    simp [crouchStep, hs, standUpDelay]
  · intro t ds
    induction ds generalizing t with
    | nil => intro _ _ _; simp [crouchRun]
    | cons d ds ih =>
      intro ht hnn hsum
      have hd : 0 ≤ d := hnn d (by simp)
      have hrest : 0 ≤ ds.sum := List.sum_nonneg fun x hx => hnn x (by simp [hx])
      have hstep : crouchStep ⟨true, t⟩ ⟨false, true, d⟩ = ⟨true, t + d⟩ := by
        have h1 : 0 ≤ t + d := by linarith
        have h2 : t + d < standUpDelay := by
          simp only [List.sum_cons] at hsum; linarith
        simp [crouchStep, ht, h1, h2]
      have hnn2 : ∀ x ∈ ds, (0:ℚ) ≤ x := fun x hx => hnn x (by simp [hx])
      have hsum2 : t + d + ds.sum < standUpDelay := by
        simp only [List.sum_cons] at hsum; linarith
      simpa [crouchRun, hstep] using ih (t + d) (by linarith) hnn2 hsum2

/-- Witness for the amended C4: arming the timer by a blocked frame, then
two clearance frames of 0.1 s each (0.2 s < 0.5 s total) leave the
character crouched. -/
theorem crouch_forced_stand_debounced_witness :
    (crouchStep ⟨true, (3:ℚ)⟩ ⟨false, false, 1/60⟩ = ⟨true, 0⟩) ∧
    ((0:ℚ) + ([1/10, 1/10] : List ℚ).sum < standUpDelay ∧
      (crouchRun ⟨true, 0⟩
        ([1/10, 1/10].map fun d => ⟨false, true, d⟩)).crouched = true) := by
  constructor
  · exact crouch_forced_stand_debounced.1 ⟨true, 3⟩ (1/60) rfl
  · refine ⟨by norm_num [standUpDelay], ?_⟩
    exact crouch_forced_stand_debounced.2 0 [1/10, 1/10] le_rfl
      (by intro d hd; simp only [List.mem_cons, List.not_mem_nil, or_false] at hd
          rcases hd with rfl | rfl <;> norm_num)
      (by norm_num [standUpDelay])

/-! ## Landing detection (GodotCharacterHybrid.tsx lines 437-459) -/

/-- The jump phase ref (`jumpPhase.current ∈ {"none","start","loop","land"}`). -/
inductive JumpPhase where
  | none
  | start
  | loop
  | land
  deriving DecidableEq, Repr

/-- The `setTimeout` delay of the land auto-expiry, in seconds (300 ms). -/
def landExpiry : ℚ := 3 / 10

/-- The phase/animation state touched by landing detection: last frame's
grounded flag (`wasGrounded.current`), the jump phase, the current animation
name, and the fire times of the land-expiry callbacks scheduled via
`setTimeout`. -/
structure LandState where
  wasGrounded : Bool
  phase : JumpPhase
  anim : String
  pending : List ℚ
  deriving DecidableEq, Repr

/-- Per-frame inputs to the phase logic: this frame's grounded flag, the
wall-clock time, the crouch decision and transition flag (they gate the
air-loop branch), whether the crouch state flips this frame (which resets
the phase, line 482), and whether the jump impulse fires this frame (which
overwrites the phase with `start`, lines 567-568 / 617-618). -/
structure LandFrameIn where
  grounded : Bool
  now : ℚ
  shouldBeCrouched : Bool
  transitioning : Bool
  crouchChanged : Bool
  jumpTriggers : Bool

/-- The phase-relevant slice of one `useFrame` call, in source order:
landing detection on the grounded false→true edge (lines 438-446, which
also schedules the 300 ms expiry callback), the airborne-loop branch
(lines 449-457), the `wasGrounded` update (line 459), the phase reset on a
crouch-state change (line 482), and the jump trigger (lines 567/617). -/
def landingFrame (s : LandState) (f : LandFrameIn) : LandState :=
  let s1 :=
    if !s.wasGrounded && f.grounded then
      { s with phase := JumpPhase.land, anim := "jumpLand",
               pending := s.pending ++ [f.now + landExpiry] }
    else s
  let s2 :=
    if !f.grounded && !f.shouldBeCrouched && !f.transitioning
        && (s1.phase = JumpPhase.none : Bool) then
      { s1 with phase := JumpPhase.loop, anim := "jumpLoop" }
    else s1
  let s3 := { s2 with wasGrounded := f.grounded }
  let s4 := if f.crouchChanged then { s3 with phase := JumpPhase.none } else s3
  if f.jumpTriggers then { s4 with phase := JumpPhase.start, anim := "jumpStart" } else s4

/-- The land-expiry callback body (lines 441-445):
`if (jumpPhase.current === "land") jumpPhase.current = "none";`. -/
def landTimeoutFire (s : LandState) : LandState :=
  if s.phase = JumpPhase.land then { s with phase := JumpPhase.none } else s

/-- C9: on every grounded false→true edge, landing is detected: the frame
sets the phase to `land` and the animation to `"jumpLand"` and schedules the
expiry callback 300 ms later (provided nothing later in the same frame — a
crouch flip or a jump trigger — overwrites the phase); when the callback
fires with the phase still `land` it resets it to `none`, and when the
phase was changed in the meantime the callback leaves the state alone. -/
theorem landing_detected_on_grounded_edge :
    (∀ (s : LandState) (f : LandFrameIn),
      s.wasGrounded = false → f.grounded = true →
      f.crouchChanged = false → f.jumpTriggers = false →
        (landingFrame s f).phase = JumpPhase.land ∧
        (landingFrame s f).anim = "jumpLand" ∧
        (f.now + landExpiry) ∈ (landingFrame s f).pending) ∧
    (∀ s : LandState, s.phase = JumpPhase.land →
      landTimeoutFire s = { s with phase := JumpPhase.none }) ∧
    (∀ s : LandState, s.phase ≠ JumpPhase.land → landTimeoutFire s = s) := by
  refine ⟨?_, ?_, ?_⟩
  · intro s f hw hg hc hj
    simp [landingFrame, hw, hg, hc, hj]
  · intro s hs
    simp [landTimeoutFire, hs]
  · intro s hs
    simp [landTimeoutFire, hs]

/-- Witness for C9: an airborne-to-grounded frame at time 10 s with no
competing phase writes. -/
theorem landing_detected_on_grounded_edge_witness :
    (landingFrame ⟨false, JumpPhase.loop, "jumpLoop", []⟩
        ⟨true, 10, false, false, false, false⟩).phase = JumpPhase.land ∧
    (landingFrame ⟨false, JumpPhase.loop, "jumpLoop", []⟩
        ⟨true, 10, false, false, false, false⟩).anim = "jumpLand" ∧
    ((10 : ℚ) + landExpiry) ∈ (landingFrame ⟨false, JumpPhase.loop, "jumpLoop", []⟩
        ⟨true, 10, false, false, false, false⟩).pending :=
  landing_detected_on_grounded_edge.1 ⟨false, JumpPhase.loop, "jumpLoop", []⟩
    ⟨true, 10, false, false, false, false⟩ rfl rfl rfl rfl

/-! ## Terrain height clamp and grass instance populator -/

/-- A JavaScript float as seen by the height pipeline: `Option.none` stands
for a non-finite value (NaN or ±Infinity). -/
abbrev JSNum := Option ℚ

/-- The safety clamp at the end of `getTerrainHeight`
(ProceduralTerrain5.jsx lines 126-131), as a function of the computed
`finalHeight` (the upstream noise arithmetic is injected noise data):
`if (!isFinite(finalHeight) || Math.abs(finalHeight) > 10000) return 0;
return finalHeight;`. -/
def getTerrainHeight (finalHeight : JSNum) : ℚ :=
  match finalHeight with
  | Option.none => 0
  | some h => if 10000 < |h| then 0 else h

/-- The per-instance ground-height lookup of `createOptimizedTileMesh`
(OptimizedGrassGeometry.tsx line 172):
`const groundHeight = getGroundHeight ? getGroundHeight(worldX, worldZ) : 0;`
— there is no try/catch and no finiteness check around the call, so a
sampler modelled in `Except` propagates its error and a non-finite return
is used as-is. -/
def instanceGroundHeight (getGroundHeight : Option (ℚ → ℚ → Except Unit JSNum))
    (worldX worldZ : ℚ) : Except Unit JSNum :=
  match getGroundHeight with
  | Option.none => Except.ok (some 0)
  | some g => g worldX worldZ

/-- C7 counterexample: the populator itself offers no protection.  With a
sampler that throws, the population step for an instance at (0,0) yields the
propagated error — not a height-0 placement; with a sampler that returns a
non-finite value, the instance keeps that non-finite height instead of 0. -/
theorem instance_populator_propagates_sampler_failure :
    instanceGroundHeight (some fun _ _ => Except.error ()) 0 0 = Except.error () ∧
    instanceGroundHeight (some fun _ _ => Except.ok Option.none) 0 0
      = Except.ok Option.none ∧
    (Except.error () : Except Unit JSNum) ≠ Except.ok (some 0) ∧
    (Except.ok Option.none : Except Unit JSNum) ≠ Except.ok (some 0) := by
  refine ⟨rfl, rfl, by simp, by simp⟩

/-- C7 (amended): the height-0 fallback lives inside the sampler, not the
populator.  `getTerrainHeight` clamps a non-finite computed height (and any
height of magnitude above 10000) to 0 and returns all other heights
unchanged, so instances sampled through it are always placed at a finite
height and at 0 for a non-finite sample; the populator merely defaults to 0
when no sampler is supplied, and it neither catches sampler exceptions nor
clamps non-finite sampler returns. -/
theorem terrain_height_clamped_inside_sampler :
    (∀ x z : ℚ, instanceGroundHeight Option.none x z = Except.ok (some 0)) ∧
    getTerrainHeight Option.none = 0 ∧
    (∀ h : ℚ, 10000 < |h| → getTerrainHeight (some h) = 0) ∧
    (∀ h : ℚ, |h| ≤ 10000 → getTerrainHeight (some h) = h) ∧
    (∀ (raw : JSNum) (x z : ℚ),
      instanceGroundHeight (some fun _ _ => Except.ok (some (getTerrainHeight raw))) x z
        = Except.ok (some (getTerrainHeight raw))) := by
  refine ⟨fun x z => rfl, rfl, ?_, ?_, fun raw x z => rfl⟩
  · intro h hh
    simp [getTerrainHeight, hh]
  · intro h hh
    simp [getTerrainHeight, not_lt.mpr hh]

/-- Witness for the amended C7: a non-finite sample is placed at height 0,
an in-range sample of 5 passes through. -/
theorem terrain_height_clamped_inside_sampler_witness :
    ((10000 : ℚ) < |(20000 : ℚ)| ∧ getTerrainHeight (some 20000) = 0) ∧
    (|(5 : ℚ)| ≤ 10000 ∧ getTerrainHeight (some 5) = 5) := by
  refine ⟨⟨by norm_num, ?_⟩, ⟨by norm_num, ?_⟩⟩
  · exact terrain_height_clamped_inside_sampler.2.2.1 20000 (by norm_num)
  · exact terrain_height_clamped_inside_sampler.2.2.2.1 5 (by norm_num)

/-! ## Angle normalization (GodotCharacterHybrid.tsx lines 12-31)

`normalizeAngle` is two `while` loops over `Math.PI`.  The source runs on
IEEE binary64 floats, and the two views of it needed below are modelled
separately:

* an exact-arithmetic idealization (`normWhileGt` / `normWhileLt` /
  `normalizeAngle` / `lerpAngle`), in which the loop body subtracts or adds
  exactly `2 * P` for an arbitrary positive rational `P` standing for the
  value of `Math.PI`; these definitions are total, which is the termination
  argument for the idealized loops;
* a float64 model of a single execution of the loop body
  (`normalizeStepFloat` below, built on correctly-rounded binary64 rounding
  `roundDouble` and the exact double value `float64Pi` of `Math.PI`), used
  to show that the float64 loop itself is NOT total: for large finite
  doubles the subtraction is absorbed by rounding and the loop never exits,
  so no total Lean function can model the float64 loop as a whole. -/

/-- Exact-arithmetic idealization of
`while (angle > Math.PI) angle -= 2 * Math.PI;` (line 13): the float64
subtraction is replaced by exact rational subtraction of `2 * P`.
(The float64 loop body is modelled separately as `normalizeStepFloat`;
under float64 semantics this loop does not terminate for all finite
inputs — see `normalizeAngle_float64_loop_stuck`.) -/
def normWhileGt (P : ℚ) (hP : 0 < P) (a : ℚ) : ℚ :=
  if h : P < a then normWhileGt P hP (a - 2 * P) else a
termination_by (⌈(a - P) / (2 * P)⌉).toNat
decreasing_by
  have h2P : (0 : ℚ) < 2 * P := by linarith
  have heq : (a - 2 * P - P) / (2 * P) = (a - P) / (2 * P) - 1 := by
    field_simp
    ring
  have hpos : 0 < ⌈(a - P) / (2 * P)⌉ := Int.ceil_pos.mpr (div_pos (by linarith) h2P)
  rw [heq, Int.ceil_sub_one]
  omega

/-- Exact-arithmetic idealization of
`while (angle < -Math.PI) angle += 2 * Math.PI;` (line 14), with the same
caveat as `normWhileGt`: under float64 semantics the addition is absorbed
for large-magnitude negative finite doubles. -/
def normWhileLt (P : ℚ) (hP : 0 < P) (a : ℚ) : ℚ :=
  if h : a < -P then normWhileLt P hP (a + 2 * P) else a
termination_by (⌈(-P - a) / (2 * P)⌉).toNat
decreasing_by
  have h2P : (0 : ℚ) < 2 * P := by linarith
  have heq : (-P - (a + 2 * P)) / (2 * P) = (-P - a) / (2 * P) - 1 := by
    field_simp
    ring
  have hpos : 0 < ⌈(-P - a) / (2 * P)⌉ := Int.ceil_pos.mpr (div_pos (by linarith) h2P)
  rw [heq, Int.ceil_sub_one]
  omega

/-- Exact-arithmetic idealization of `normalizeAngle` (lines 12-16): run
the subtracting loop, then the adding loop, and return the angle. -/
def normalizeAngle (P : ℚ) (hP : 0 < P) (a : ℚ) : ℚ :=
  normWhileLt P hP (normWhileGt P hP a)

/-- Exact-arithmetic idealization of `lerpAngle` (lines 18-31): normalize
both endpoints, shift one of them by a full turn when they are more than
`P` apart, interpolate, and normalize the result. -/
def lerpAngle (P : ℚ) (hP : 0 < P) (s e t : ℚ) : ℚ :=
  let s1 := normalizeAngle P hP s
  let e1 := normalizeAngle P hP e
  let se : ℚ × ℚ :=
    if P < |e1 - s1| then
      if s1 < e1 then (s1 + 2 * P, e1) else (s1, e1 + 2 * P)
    else (s1, e1)
  normalizeAngle P hP (se.1 + (se.2 - se.1) * t)

theorem normWhileGt_le (P : ℚ) (hP : 0 < P) (a : ℚ) : normWhileGt P hP a ≤ P := by
  induction a using normWhileGt.induct P hP with
  | case1 a h ih => rw [normWhileGt, dif_pos h]; exact ih
  | case2 a h => rw [normWhileGt, dif_neg h]; linarith [not_lt.mp h]

theorem normWhileGt_sub (P : ℚ) (hP : 0 < P) (a : ℚ) :
    ∃ k : ℤ, normWhileGt P hP a = a - 2 * P * k := by
  induction a using normWhileGt.induct P hP with
  | case1 a h ih =>
    obtain ⟨k, hk⟩ := ih
    refine ⟨k + 1, ?_⟩
    rw [normWhileGt, dif_pos h, hk]
    push_cast
    ring
  | case2 a h =>
    refine ⟨0, ?_⟩
    rw [normWhileGt, dif_neg h]
    push_cast
    ring

theorem normWhileLt_ge (P : ℚ) (hP : 0 < P) (a : ℚ) : -P ≤ normWhileLt P hP a := by
  induction a using normWhileLt.induct P hP with
  | case1 a h ih => rw [normWhileLt, dif_pos h]; exact ih
  | case2 a h => rw [normWhileLt, dif_neg h]; linarith [not_lt.mp h]

theorem normWhileLt_le (P : ℚ) (hP : 0 < P) (a : ℚ) (ha : a ≤ P) :
    normWhileLt P hP a ≤ P := by
  revert ha
  induction a using normWhileLt.induct P hP with
  | case1 a h ih =>
    intro _
    rw [normWhileLt, dif_pos h]
    exact ih (by linarith)
  | case2 a h =>
    intro ha
    rw [normWhileLt, dif_neg h]
    exact ha

theorem normWhileLt_sub (P : ℚ) (hP : 0 < P) (a : ℚ) :
    ∃ k : ℤ, normWhileLt P hP a = a + 2 * P * k := by
  induction a using normWhileLt.induct P hP with
  | case1 a h ih =>
    obtain ⟨k, hk⟩ := ih
    refine ⟨k + 1, ?_⟩
    rw [normWhileLt, dif_pos h, hk]
    push_cast
    ring
  | case2 a h =>
    refine ⟨0, ?_⟩
    rw [normWhileLt, dif_neg h]
    push_cast
    ring

theorem normalizeAngle_mem (P : ℚ) (hP : 0 < P) (a : ℚ) :
    -P ≤ normalizeAngle P hP a ∧ normalizeAngle P hP a ≤ P := by
  unfold normalizeAngle
  exact ⟨normWhileLt_ge P hP _, normWhileLt_le P hP _ (normWhileGt_le P hP a)⟩

/-! ### Float64 model of the loop body

The source loops execute `angle -= 2 * Math.PI` (resp. `+=`) on IEEE
binary64 doubles.  `roundDouble` below is round-to-nearest, ties-to-even,
to 53 significant bits — correct binary64 rounding throughout the normal
range (the only range the refutation touches; overflow and subnormals play
no role at the magnitudes involved). -/

/-- Round a rational to the nearest integer, ties to the even integer
(the IEEE 754 default rounding of the significand). -/
def roundHalfEven (q : ℚ) : ℤ :=
  if q - ⌊q⌋ < 1 / 2 then ⌊q⌋
  else if 1 / 2 < q - ⌊q⌋ then ⌊q⌋ + 1
  else if ⌊q⌋ % 2 = 0 then ⌊q⌋ else ⌊q⌋ + 1

/-- The exponent of the unit in the last place of the binary64 double
nearest to `x` (for normal-range `x`): the binade of `x` minus 52. -/
def float64ulpExp (x : ℚ) : ℤ := Int.log 2 |x| - 52

/-- Round a rational to the nearest binary64 double (normal range):
round the 53-bit significand to nearest, ties to even. -/
def roundDouble (x : ℚ) : ℚ :=
  if x = 0 then 0
  else ((roundHalfEven (x / 2 ^ float64ulpExp x) : ℤ) : ℚ) * 2 ^ float64ulpExp x

/-- The exact value of the binary64 double `Math.PI`
(`0x400921FB54442D18`). -/
def float64Pi : ℚ := 884279719003555 / 2 ^ 48

/-- One execution of the loop body `angle -= 2 * Math.PI` (line 13) in
binary64: `2 * Math.PI` doubles the exponent field only and is exact, so
the single rounding is the one after the subtraction. -/
def normalizeStepFloat (angle : ℚ) : ℚ := roundDouble (angle - 2 * float64Pi)

theorem int_log2_eq_of (x : ℚ) (e : ℕ) (hpos : 0 < x)
    (hlow : (2 : ℚ) ^ e ≤ x) (hhigh : x < 2 ^ (e + 1)) : Int.log 2 x = e := by
  have h1 : (e : ℤ) ≤ Int.log 2 x := by
    refine (Int.zpow_le_iff_le_log (by norm_num) hpos).mp ?_
    rw [zpow_natCast]
    exact_mod_cast hlow
  have h2 : Int.log 2 x < (e : ℤ) + 1 := by
    refine (Int.lt_zpow_iff_log_lt (by norm_num) hpos).mp ?_
    rw [show ((e : ℤ) + 1) = ((e + 1 : ℕ) : ℤ) by push_cast; ring, zpow_natCast]
    exact_mod_cast hhigh
  omega

theorem roundHalfEven_of_half_lt {q : ℚ} (h : 1 / 2 < q - ⌊q⌋) :
    roundHalfEven q = ⌊q⌋ + 1 := by
  rw [roundHalfEven, if_neg (by linarith), if_pos h]

theorem roundHalfEven_of_lt_half {q : ℚ} (h : q - ⌊q⌋ < 1 / 2) :
    roundHalfEven q = ⌊q⌋ := by
  rw [roundHalfEven, if_pos h]

/-- C10 counterexample: the source loops run on binary64 floats, where the
claim fails.  `2 ^ 57` is a finite double (third conjunct: it is a fixed
point of binary64 rounding), the loop guard holds there (`Math.PI < 2 ^ 57`,
second conjunct), yet one execution of the loop body
`angle -= 2 * Math.PI` leaves the angle unchanged (first conjunct): the
exact difference `2 ^ 57 - 2 * Math.PI` lies in the binade `[2 ^ 56, 2 ^ 57)`
whose doubles are 16 apart, and it is within 8 of `2 ^ 57`, so it rounds
back up.  The loop state never changes while the guard stays true, hence
`normalizeAngle(2 ^ 57)` never terminates — refuting the claim that
`normalizeAngle` terminates for every finite input angle. -/
theorem normalizeAngle_float64_loop_stuck :
    normalizeStepFloat (2 ^ 57) = 2 ^ 57 ∧ float64Pi < 2 ^ 57 ∧
    roundDouble (2 ^ 57) = 2 ^ 57 := by
  refine ⟨?_, by norm_num [float64Pi], ?_⟩
  · have hXval : (2 : ℚ) ^ 57 - 2 * float64Pi =
        20282409603651669539667532282461 / 2 ^ 47 := by
      rw [float64Pi]; norm_num
    have hXpos : (0 : ℚ) < 20282409603651669539667532282461 / 2 ^ 47 := by norm_num
    have hlog : Int.log 2 |(20282409603651669539667532282461 / 2 ^ 47 : ℚ)| = 56 := by
      rw [abs_of_pos hXpos]
      exact int_log2_eq_of _ 56 hXpos (by norm_num) (by norm_num)
    have hexp : float64ulpExp (20282409603651669539667532282461 / 2 ^ 47 : ℚ) = 4 := by
      rw [float64ulpExp, hlog]; norm_num
    have h16 : ((2 : ℚ) ^ (4 : ℤ)) = 16 := by norm_num
    have hq : (20282409603651669539667532282461 / 2 ^ 47 : ℚ) / 16 =
        20282409603651669539667532282461 / 2 ^ 51 := by
      rw [div_div]; norm_num
    have hfloor : ⌊(20282409603651669539667532282461 / 2 ^ 51 : ℚ)⌋ =
        9007199254740991 := by
      rw [Int.floor_eq_iff]
      constructor <;> norm_num
    have hround : roundHalfEven (20282409603651669539667532282461 / 2 ^ 51 : ℚ) =
        9007199254740992 := by
      have hfr : 1 / 2 <
          (20282409603651669539667532282461 / 2 ^ 51 : ℚ) -
            ⌊(20282409603651669539667532282461 / 2 ^ 51 : ℚ)⌋ := by
        rw [hfloor]; norm_num
      rw [roundHalfEven_of_half_lt hfr, hfloor]
      norm_num
    rw [normalizeStepFloat, hXval, roundDouble, if_neg (by norm_num), hexp, h16, hq, hround]
    norm_num
  · have hpos : (0 : ℚ) < 2 ^ 57 := by norm_num
    have hlog : Int.log 2 |(2 ^ 57 : ℚ)| = 57 := by
      rw [abs_of_pos hpos]
      exact int_log2_eq_of _ 57 hpos (by norm_num) (by norm_num)
    have hexp : float64ulpExp (2 ^ 57 : ℚ) = 5 := by
      rw [float64ulpExp, hlog]; norm_num
    have h32 : ((2 : ℚ) ^ (5 : ℤ)) = 32 := by norm_num
    have hq : (2 ^ 57 : ℚ) / 32 = 4503599627370496 := by norm_num
    have hfloor : ⌊(4503599627370496 : ℚ)⌋ = 4503599627370496 := by
      rw [Int.floor_eq_iff]
      constructor <;> norm_num
    have hround : roundHalfEven (4503599627370496 : ℚ) = 4503599627370496 := by
      have hfr : (4503599627370496 : ℚ) - ⌊(4503599627370496 : ℚ)⌋ < 1 / 2 := by
        rw [hfloor]; norm_num
      rw [roundHalfEven_of_lt_half hfr, hfloor]
    rw [roundDouble, if_neg (by norm_num), hexp, h32, hq, hround]
    norm_num

/-- C10 (amended): in exact arithmetic — the idealization in which the loop
body subtracts or adds exactly `2P`, with `P` the positive constant
standing for `Math.PI` — for every input angle the two loops of
`normalizeAngle` terminate (the definitions are total) and return a value
in `[-P, P]` that differs from the input by an integer multiple of `2P`,
and consequently every angle produced by `lerpAngle` lies in `[-P, P]`;
under binary64 float semantics this fails for large finite angles, where
the subtraction of `2 * Math.PI` is absorbed by rounding and the first
loop never exits (see `normalizeAngle_float64_loop_stuck`). -/
theorem normalizeAngle_range_and_congruence (P a : ℚ) (hP : 0 < P) :
    (-P ≤ normalizeAngle P hP a ∧ normalizeAngle P hP a ≤ P) ∧
    (∃ k : ℤ, a - normalizeAngle P hP a = 2 * P * k) ∧
    (∀ s e t : ℚ, -P ≤ lerpAngle P hP s e t ∧ lerpAngle P hP s e t ≤ P) := by
  refine ⟨normalizeAngle_mem P hP a, ?_, ?_⟩
  · obtain ⟨k1, hk1⟩ := normWhileGt_sub P hP a
    obtain ⟨k2, hk2⟩ := normWhileLt_sub P hP (normWhileGt P hP a)
    refine ⟨k1 - k2, ?_⟩
    have : normalizeAngle P hP a = a - 2 * P * k1 + 2 * P * k2 := by
      rw [normalizeAngle, hk2, hk1]
    rw [this]
    push_cast
    ring
  · intro s e t
    unfold lerpAngle
    exact normalizeAngle_mem P hP _

/-- Witness for the amended C10 at `P = 3`, `a = 10`: the result is `-2`,
which lies in `[-3, 3]` and differs from 10 by `2 · 3 · 2`. -/
theorem normalizeAngle_range_and_congruence_witness :
    (0 : ℚ) < 3 ∧
    (-3 ≤ normalizeAngle 3 (by norm_num) 10 ∧ normalizeAngle 3 (by norm_num) 10 ≤ 3) ∧
    normalizeAngle 3 (by norm_num) 10 = -2 := by
  have heval : normalizeAngle 3 (by norm_num : (0:ℚ) < 3) 10 = -2 := by
    have h1 : normWhileGt 3 (by norm_num : (0:ℚ) < 3) 10 = -2 := by
      rw [normWhileGt]
      norm_num
      rw [normWhileGt]
      norm_num
      rw [normWhileGt]
      norm_num
    have h2 : normWhileLt 3 (by norm_num : (0:ℚ) < 3) (-2) = -2 := by
      rw [normWhileLt]
      norm_num
    rw [normalizeAngle, h1, h2]
  exact ⟨by norm_num,
    (normalizeAngle_range_and_congruence 3 10 (by norm_num)).1, heval⟩

end WawaGame
